import Mathlib

/-!
# Verification of the ls-azure-night-runner mission dispatch and artifact pipeline

Shallow embedding of the core Python modules of `ls-azure-night-runner`
(`missions.py`, `git_sandbox.py`, `dispatcher.py`, `results.py`, `cycle.py`,
`executors/nm_011_scheduler_readme.py`) together with theorems settling the
frozen specification claims.

Modelling conventions:
* Python `dict`-based mission records become a `Mission` structure whose fields
  capture exactly the dynamic checks the code performs (`isinstance` tests,
  falsiness coercions).  A field that may be absent is an `Option`.
* Functions with filesystem or subprocess effects are embedded by passing the
  relevant environment explicitly (file contents, process exit codes/stderr);
  a Python function that can raise is embedded as `Except`.
* Strings are Lean `String`s; Python `str.strip` is modelled by `String.trim`
  and line splitting by splitting on `"\n"` (the logs in question are
  produced with `"\n"` separators).
-/

namespace NightRunner

/-! ## Python string primitives

Executable char-list models of the Python `str` operations the sources use
(`strip`, `startswith`, slicing, `lower`, `in`, `<` on strings,
`splitlines`).  They are defined by structural recursion so that concrete
claims evaluate inside the kernel. -/

/-- The ASCII whitespace characters stripped by Python's `str.strip()`. -/
def pyIsSpace (c : Char) : Bool :=
  c = ' ' || c = '\t' || c = '\n' || c = '\r' || c = '\x0b' || c = '\x0c'

/-- Python `str.strip()` (ASCII whitespace). -/
def pyStrip (s : String) : String :=
  ⟨((s.data.dropWhile pyIsSpace).reverse.dropWhile pyIsSpace).reverse⟩

/-- Python `str.startswith(prefix)`. -/
def pyStartsWith (s pre : String) : Bool :=
  pre.data.isPrefixOf s.data

/-- Python `s[n:]` (drop the first `n` characters). -/
def pyDropChars (s : String) (n : Nat) : String :=
  ⟨s.data.drop n⟩

/-- Python `str.lower()` (ASCII model via `Char.toLower`). -/
def pyLower (s : String) : String :=
  ⟨s.data.map Char.toLower⟩

/-- `needle.isPrefixOf` scanned along the haystack. -/
def pyContainsAux (needle : List Char) : List Char → Bool
  | [] => needle.isEmpty
  | c :: rest => needle.isPrefixOf (c :: rest) || pyContainsAux needle rest

/-- Python `needle in hay` for strings. -/
def pyContains (hay needle : String) : Bool :=
  pyContainsAux needle.data hay.data

/-- Python `a or b` for strings: `a` unless it is empty. -/
def pyOrDefault (a b : String) : String :=
  if a = "" then b else a

/-- Strict lexicographic comparison of char lists by code point, Python's
`str.__lt__`. -/
def pyStrLtList : List Char → List Char → Bool
  | [], [] => false
  | [], _ :: _ => true
  | _ :: _, [] => false
  | a :: as, b :: bs =>
    if a.toNat < b.toNat then true
    else if b.toNat < a.toNat then false
    else pyStrLtList as bs

/-- Python `a <= b` on strings. -/
def pyStrLe (a b : String) : Bool :=
  pyStrLtList a.data b.data || a.data == b.data

/-- Python `str.splitlines()` restricted to `"\n"` separators: split at each
newline and drop the trailing empty segment. -/
def pySplitlinesAux (cur : List Char) : List Char → List (List Char)
  | [] => [cur.reverse]
  | c :: rest =>
    if c = '\n' then cur.reverse :: pySplitlinesAux [] rest
    else pySplitlinesAux (c :: cur) rest

/-- Python `str.splitlines()` (newline-only model; the logs under scrutiny
use `"\n"` separators). -/
def pySplitlines (s : String) : List String :=
  let segs := pySplitlinesAux [] s.data
  (if segs.getLast? = some [] then segs.dropLast else segs).map fun l => ⟨l⟩

theorem pyStrLtList_trans : ∀ {a b c : List Char},
    pyStrLtList a b = true → pyStrLtList b c = true → pyStrLtList a c = true := by
  intro a
  induction a with
  | nil =>
    intro b c hab hbc
    cases b with
    | nil => simp [pyStrLtList] at hab
    | cons y ys =>
      cases c with
      | nil => simp [pyStrLtList] at hbc
      | cons z zs => simp [pyStrLtList]
  | cons x xs ih =>
    intro b c hab hbc
    cases b with
    | nil => simp [pyStrLtList] at hab
    | cons y ys =>
      cases c with
      | nil => simp [pyStrLtList] at hbc
      | cons z zs =>
        simp only [pyStrLtList] at hab hbc ⊢
        split at hab
        · rename_i hxy
          split at hbc
          · rename_i hyz
            have : x.toNat < z.toNat := Nat.lt_trans hxy hyz
            simp [this]
          · split at hbc
            · exact absurd hbc (by simp)
            · rename_i hzy hyz
              have hyz' : y.toNat = z.toNat := Nat.le_antisymm (Nat.le_of_not_lt hyz) (Nat.le_of_not_lt hzy)
              have : x.toNat < z.toNat := hyz' ▸ hxy
              simp [this]
        · split at hab
          · exact absurd hab (by simp)
          · rename_i hyx hxy
            have hxy' : x.toNat = y.toNat := Nat.le_antisymm (Nat.le_of_not_lt hxy) (Nat.le_of_not_lt hyx)
            split at hbc
            · rename_i hyz
              have : x.toNat < z.toNat := hxy' ▸ hyz
              simp [this]
            · split at hbc
              · exact absurd hbc (by simp)
              · rename_i hzy hyz
                have hyz' : y.toNat = z.toNat := Nat.le_antisymm (Nat.le_of_not_lt hyz) (Nat.le_of_not_lt hzy)
                have hxz : x.toNat = z.toNat := hxy'.trans hyz'
                simp [Nat.lt_irrefl, hxz, ih hab hbc]

theorem pyStrLtList_trichotomy : ∀ (a b : List Char),
    pyStrLtList a b = true ∨ pyStrLtList b a = true ∨ a = b := by
  intro a
  induction a with
  | nil =>
    intro b
    cases b with
    | nil => exact Or.inr (Or.inr rfl)
    | cons y ys => exact Or.inl (by simp [pyStrLtList])
  | cons x xs ih =>
    intro b
    cases b with
    | nil => exact Or.inr (Or.inl (by simp [pyStrLtList]))
    | cons y ys =>
      rcases Nat.lt_trichotomy x.toNat y.toNat with h | h | h
      · exact Or.inl (by simp [pyStrLtList, h])
      · have hxy : x = y := by
          unfold Char.toNat at h
          exact Char.eq_of_val_eq (UInt32.toNat.inj h)
        rcases ih ys with h2 | h2 | h2
        · exact Or.inl (by simp [pyStrLtList, h, Nat.lt_irrefl, h2])
        · exact Or.inr (Or.inl (by simp [pyStrLtList, hxy, Nat.lt_irrefl, h2]))
        · exact Or.inr (Or.inr (by rw [hxy, h2]))
      · exact Or.inr (Or.inl (by simp [pyStrLtList, h]))

/-! ## Data model (`missions.py`, `dispatcher.py`)

`Mission = Dict[str, object]` in the source.  The embedding keeps exactly the
fields the embedded functions inspect, with `Option` for absent keys and
dedicated inductives where the code branches on the Python *type* of a value.
-/

/-- One entry of a mission's `repos` list.  The dispatcher and sandbox code
only ever test `isinstance(repo, dict)` and read `repo.get("name")`;
`name = some ""` models a present-but-falsy name (skipped like an absent
one by `if not repo_name`). -/
inductive RepoEntry where
  | dict (name : Option String)
  | nonDict
  deriving Repr, DecidableEq

/-- The value of a mission's `"repos"` key.  `run_mission_executor` computes
`mission.get("repos") or []`, so what matters about a non-list value is only
its Python truthiness, recorded in `nonList truthy`. -/
inductive ReposField where
  | absent
  | list (entries : List RepoEntry)
  | nonList (truthy : Bool)
  deriving Repr, DecidableEq

/-- The value of a mission's `"risk"` key after the source's
`risk = mission.get("risk") or {}` / `isinstance(risk, dict)` dance: a
non-dict or absent risk contributes no tier, so only the optional
`tier` string survives. -/
structure Risk where
  tier : Option String
  deriving Repr, DecidableEq

/-- A mission record, restricted to the keys inspected by the embedded
functions.  `priority` is `some n` only when the stored value is a Python
`int` (the source guards with `isinstance(priority_value, int)`). -/
structure Mission where
  mission_id : Option String
  status : Option String
  risk : Option Risk
  priority : Option Int
  repos : ReposField
  deriving Repr, DecidableEq

/-! ## `missions.py`: `select_ready_missions` -/

/-- `risk.get("tier") if isinstance(risk, dict) else None` applied to
`mission.get("risk") or {}`. -/
def missionTier (m : Mission) : Option String :=
  m.risk.bind Risk.tier

/-- The filter test of `select_ready_missions`:
`status == "ready" and risk.tier == "L1"` (the source `continue`s when
`status != "ready" or tier != "L1"`). -/
def isEligible (m : Mission) : Bool :=
  m.status = some "ready" && missionTier m = some "L1"

/-- `priority_value if isinstance(priority_value, int) else 50`. -/
def missionPriority (m : Mission) : Int :=
  m.priority.getD 50

/-- `mission.get("mission_id") or ""` — both an absent id and an empty id
yield `""`. -/
def missionIdOrEmpty (m : Mission) : String :=
  m.mission_id.getD ""

/-- The sort key built by `select_ready_missions`. -/
def missionKey (m : Mission) : Int × String :=
  (missionPriority m, missionIdOrEmpty m)

/-- Ascending lexicographic order on `(priority, mission_id)` keys, the order
of Python tuple comparison used by `ready.sort(key=...)`. -/
def keyLex (p q : Int × String) : Prop :=
  p.1 < q.1 ∨ (p.1 = q.1 ∧ pyStrLe p.2 q.2 = true)

instance : DecidableRel keyLex := fun p q => by
  unfold keyLex; infer_instance

/-- Order on the `(priority, mission_id, mission)` tuples accumulated by the
source loop; Python compares the tuples lexicographically and never reaches
the third component because `(priority, mission_id)` pairs of distinct
entries are compared first. -/
def tupleLe (a b : Int × String × Mission) : Prop :=
  keyLex (a.1, a.2.1) (b.1, b.2.1)

instance : DecidableRel tupleLe := fun a b => by
  unfold tupleLe; infer_instance

theorem pyStrLe_total (a b : String) : pyStrLe a b = true ∨ pyStrLe b a = true := by
  unfold pyStrLe
  rcases pyStrLtList_trichotomy a.data b.data with h | h | h
  · exact Or.inl (by simp [h])
  · exact Or.inr (by simp [h])
  · exact Or.inl (by simp [h])

theorem pyStrLe_trans {a b c : String} (hab : pyStrLe a b = true)
    (hbc : pyStrLe b c = true) : pyStrLe a c = true := by
  unfold pyStrLe at *
  rcases Bool.or_eq_true_iff.mp hab with h1 | h1 <;>
    rcases Bool.or_eq_true_iff.mp hbc with h2 | h2
  · exact Bool.or_eq_true_iff.mpr (Or.inl (pyStrLtList_trans h1 h2))
  · have h2' : b.data = c.data := by simpa using h2
    exact Bool.or_eq_true_iff.mpr (Or.inl (h2' ▸ h1))
  · have h1' : a.data = b.data := by simpa using h1
    exact Bool.or_eq_true_iff.mpr (Or.inl (h1' ▸ h2))
  · have h1' : a.data = b.data := by simpa using h1
    have h2' : b.data = c.data := by simpa using h2
    exact Bool.or_eq_true_iff.mpr (Or.inr (by simp [h1'.trans h2']))

instance : IsTotal (Int × String × Mission) tupleLe where
  total a b := by
    unfold tupleLe keyLex
    rcases lt_trichotomy a.1 b.1 with h | h | h
    · exact Or.inl (Or.inl h)
    · rcases pyStrLe_total a.2.1 b.2.1 with h2 | h2
      · exact Or.inl (Or.inr ⟨h, h2⟩)
      · exact Or.inr (Or.inr ⟨h.symm, h2⟩)
    · exact Or.inr (Or.inl h)

instance : IsTrans (Int × String × Mission) tupleLe where
  trans a b c hab hbc := by
    unfold tupleLe keyLex at *
    rcases hab with h1 | ⟨h1, h1'⟩
    · rcases hbc with h2 | ⟨h2, _⟩
      · exact Or.inl (h1.trans h2)
      · exact Or.inl (h2 ▸ h1)
    · rcases hbc with h2 | ⟨h2, h2'⟩
      · exact Or.inl (h1 ▸ h2)
      · exact Or.inr ⟨h1.trans h2, pyStrLe_trans h1' h2'⟩

/-- The `ready` list built by the loop of `select_ready_missions`: one
`(priority, mission_id, mission)` tuple per mission passing the
status/tier filter, in input order. -/
def readyTuples (missions : List Mission) : List (Int × String × Mission) :=
  missions.filterMap fun m =>
    if isEligible m then some (missionPriority m, missionIdOrEmpty m, m) else none

/-- `select_ready_missions(missions, max_missions)` from `missions.py`:
filter to ready/L1, stable-sort ascending by `(priority, mission_id)`
(Python's stable `list.sort`, modelled by `List.insertionSort`), truncate,
and project the mission back out. -/
def select_ready_missions (missions : List Mission) (maxMissions : Nat) :
    List Mission :=
  (((readyTuples missions).insertionSort tupleLe).take maxMissions).map
    fun t => t.2.2

/-! ## `git_sandbox.py`: `branch_name_for_mission` -/

/-- Python's `x or default` for an optional string: `None` and `""` are
falsy. -/
def pyOrString (x : Option String) (default : String) : String :=
  match x with
  | some s => if s = "" then default else s
  | none => default

/-- `branch_name_for_mission(mission, agent, date)` from `git_sandbox.py`:
`f"night/{day}/{mission_id}-{agent}"` where `mission_id =
mission.get("mission_id", "mission")` and `day = date or
datetime.utcnow().strftime("%Y%m%d")`; the clock read is passed in
explicitly as `todayUtc`. -/
def branch_name_for_mission (m : Mission) (agent : String)
    (date : Option String) (todayUtc : String) : String :=
  let missionId := m.mission_id.getD "mission"
  let day := pyOrString date todayUtc
  "night/" ++ day ++ "/" ++ missionId ++ "-" ++ agent

/-! ## `dispatcher.py`: executor registry and `run_mission_executor`

The registry values call external workers and executors with process
effects, so the behaviour of a looked-up executor is abstracted as a
function argument `exec : String → String → R` taking the repo path and the
branch name (the `mission` argument of the Python executor signature is the
fixed mission being dispatched); the registry *keys* are the literal keys of
the `EXECUTORS` dict. -/

/-- The keys of the static `EXECUTORS` dict in `dispatcher.py`. -/
def EXECUTOR_IDS : List String :=
  ["NM-010", "NM-011", "NM-020", "NM-900", "NM-901", "NM-902", "NM-903",
   "NM-904", "NM-910", "NM-920", "NM-930"]

/-- `get_executor(mission_id)` is not-`None`: `EXECUTORS.get(mission_id)`
with `mission_id = mission.get("mission_id")` (a missing id looks up the
key `None`, which is never in the registry). -/
def hasExecutor : Option String → Bool
  | some s => EXECUTOR_IDS.contains s
  | none => false

/-- Result of `run_mission_executor`: either one of the three
`{"mission": ..., "skipped": True, "reason": ...}` dicts or the dict
returned by the invoked executor. -/
inductive DispatchOutcome (R : Type) where
  | skipped (missionId : Option String) (reason : String)
  | result (r : R)
  deriving Repr, DecidableEq

/-- The repo names the dispatcher loop keeps: entries that are dicts with a
truthy `"name"` (the source `continue`s on non-dicts and on falsy names). -/
def validRepoNames (entries : List RepoEntry) : List String :=
  entries.filterMap fun e =>
    match e with
    | .dict (some nm) => if nm = "" then none else some nm
    | _ => none

/-- `run_mission_executor(mission, repos_root)` from `dispatcher.py`.
`mission.get("repos") or []` coerces an absent or falsy `repos` value to
`[]`; only a *truthy* non-list survives to the `isinstance` check and
yields `"invalid repos"`.  The executor is invoked once per valid repo and
only the first result is returned. -/
def run_mission_executor {R : Type} (exec : String → String → R)
    (m : Mission) (reposRoot : String) (todayUtc : String) :
    DispatchOutcome R :=
  let missionId := m.mission_id
  if hasExecutor missionId then
    match m.repos with
    | .nonList true => .skipped missionId "invalid repos"
    | rf =>
      let entries := match rf with | .list l => l | _ => []
      let branch := branch_name_for_mission m "codex" none todayUtc
      let results := (validRepoNames entries).map fun nm =>
        exec (reposRoot ++ "/" ++ nm) branch
      match results with
      | [] => .skipped missionId "no valid repos"
      | r :: _ => .result r
  else .skipped missionId "no executor"

/-! ## `executors/nm_011_scheduler_readme.py`: `sync_with_remote_sandbox`

The three `git` subprocesses (`fetch origin <branch>`, `checkout <branch>`,
`reset --hard origin/<branch>`) are embedded as an environment recording the
exit code and stderr each would produce in the repo at hand. -/

/-- Exit code and stderr of one subprocess invocation. -/
structure ProcResult where
  returncode : Int
  stderr : String
  deriving Repr, DecidableEq

/-- The outcomes of the three git commands issued by
`sync_with_remote_sandbox`, in program order. -/
structure GitSyncEnv where
  fetch : ProcResult
  checkout : ProcResult
  reset : ProcResult
  deriving Repr, DecidableEq

/-- The fetch-error test: `"couldn't find remote ref" in err or
"could not find remote ref" in err` over `err = stderr.strip().lower()`. -/
def refNotFoundErr (stderr : String) : Bool :=
  let err := pyLower (pyStrip stderr)
  pyContains err "couldn't find remote ref" ||
    pyContains err "could not find remote ref"

/-- The reset-error test: `"unknown revision" in err or
"not a valid object" in err` over `err = stderr.strip().lower()`. -/
def unknownRevisionErr (stderr : String) : Bool :=
  let err := pyLower (pyStrip stderr)
  pyContains err "unknown revision" || pyContains err "not a valid object"

/-- The checkout-and-reset tail of `sync_with_remote_sandbox`, entered after
the fetch outcome has set `missing_remote`. -/
def syncAfterFetch (env : GitSyncEnv) (missingRemote : Bool) : Bool × String :=
  if env.checkout.returncode ≠ 0 then
    (false, pyOrDefault (pyStrip env.checkout.stderr) "git checkout failed")
  else if missingRemote then
    (true, "no remote branch; using local sandbox")
  else if env.reset.returncode ≠ 0 then
    if unknownRevisionErr env.reset.stderr then
      (true, "remote branch missing after fetch; using local only")
    else
      (false, pyOrDefault (pyStrip env.reset.stderr) "git reset failed")
  else
    (true, "synced with remote sandbox")

/-- `sync_with_remote_sandbox(repo_root, branch_name)` from
`nm_011_scheduler_readme.py` as a function of the git command outcomes. -/
def sync_with_remote_sandbox (env : GitSyncEnv) : Bool × String :=
  if env.fetch.returncode = 0 then
    syncAfterFetch env false
  else if refNotFoundErr env.fetch.stderr then
    syncAfterFetch env true
  else
    (false, pyOrDefault (pyStrip env.fetch.stderr) "git fetch failed")

/-! ## `results.py`: `get_results_root` -/

/-- Whether `Path.mkdir(parents=True, exist_ok=True)` succeeds at each of
the two candidate roots in the filesystem state at hand. -/
structure MkdirEnv where
  preferredOk : Bool
  fallbackOk : Bool
  deriving Repr, DecidableEq

/-- `Path.mkdir(parents=True, exist_ok=True)`: raises `OSError` when the
filesystem refuses the creation. -/
def pyMkdir (ok : Bool) : Except String Unit :=
  if ok then .ok () else .error "OSError"

/-- The preferred results root `Path("/workspace/results")`. -/
def resultsPreferredRoot : String := "/workspace/results"

/-- The fallback root
`Path(__file__).resolve().parents[2] / "workspace" / "results"`;
`pkgRoot` stands for `parents[2]` (the repository checkout root). -/
def resultsFallbackRoot (pkgRoot : String) : String :=
  pkgRoot ++ "/workspace/results"

/-- `get_results_root()` from `results.py`.  Only the preferred `mkdir` is
guarded by `try/except OSError`; an `OSError` from the fallback `mkdir`
propagates to the caller. -/
def get_results_root (pkgRoot : String) (env : MkdirEnv) :
    Except String String :=
  match pyMkdir env.preferredOk with
  | .ok _ => .ok resultsPreferredRoot
  | .error _ =>
    match pyMkdir env.fallbackOk with
    | .ok _ => .ok (resultsFallbackRoot pkgRoot)
    | .error e => .error e

/-! ## `cycle.py`: `latest_execution_name`

`datetime.fromisoformat` on an Azure `startTime` (after
`.replace("Z", "+00:00")`) yields a timezone-*aware* datetime, while the
`datetime.min` sentinel used for missing/unparseable values is *naive*;
Python refuses to order naive against aware datetimes with a `TypeError`.
The embedding keeps the instant as an integer and records awareness. -/

/-- A Python `datetime`, tagged with whether it carries a timezone. -/
inductive PyDatetime where
  | naive (t : Int)
  | aware (t : Int)
  deriving Repr, DecidableEq

/-- `datetime.min` (naive, the smallest representable instant; instants in
this development are nonnegative). -/
def dtMin : PyDatetime := .naive 0

/-- Python `a < b` on datetimes: comparing naive against aware raises
`TypeError`. -/
def pyDatetimeLt : PyDatetime → PyDatetime → Except String Bool
  | .naive a, .naive b => .ok (decide (a < b))
  | .aware a, .aware b => .ok (decide (a < b))
  | _, _ => .error "TypeError: can't compare offset-naive and offset-aware datetimes"

/-- What `parse_start` finds in one execution descriptor:
`properties.startTime` absent/falsy, present but rejected by
`datetime.fromisoformat`, or parsed to a datetime (aware whenever the
string carried `Z`/an offset, naive otherwise). -/
inductive StartField where
  | missing
  | unparseable
  | parsed (d : PyDatetime)
  deriving Repr, DecidableEq

/-- One Azure job execution descriptor, restricted to the fields
`latest_execution_name` reads (`name`, `properties.startTime`). -/
structure ExecDesc where
  name : Option String
  start : StartField
  deriving Repr, DecidableEq

/-- The inner `parse_start` of `latest_execution_name`: missing and
unparseable timestamps become `datetime.min`. -/
def parse_start (e : ExecDesc) : PyDatetime :=
  match e.start with
  | .parsed d => d
  | _ => dtMin

/-- Python `max(xs, key=key)`: keep the first element, replacing it whenever
a strictly greater key appears; a `TypeError` from a key comparison
propagates. -/
def pyMaxBy {α : Type} (key : α → PyDatetime) : List α → Except String α
  | [] => .error "ValueError: max() arg is an empty sequence"
  | x :: xs =>
    xs.foldlM
      (fun best item => do
        let gt ← pyDatetimeLt (key best) (key item)
        pure (if gt then item else best))
      x

/-- `latest_execution_name` from `cycle.py`, given the parsed output of
`az containerapp job execution list`; `SystemExit`/`TypeError` paths are
`Except.error`. -/
def latest_execution_name (executions : List ExecDesc) :
    Except String String :=
  match executions with
  | [] => .error "No executions found for job."
  | _ =>
    match pyMaxBy parse_start executions with
    | .error e => .error e
    | .ok latest =>
      match latest.name with
      | some nm =>
        if nm = "" then .error "Could not determine execution name."
        else .ok nm
      | none => .error "Could not determine execution name."

/-! ## `cycle.py`: `parse_mission_results` and `process_cycle_artifacts`

JSON (de)serialisation of mission results is abstracted as a decoder
`jp : String → Option J` (`json.loads`, `none` = `JSONDecodeError`) and an
encoder `encJ : J → String` (`json.dumps`); likewise for execution
metadata.  The worker-results module imported by `cycle.py`
(`extract_worker_result_records_from_lines`, `write_worker_results_jsonl`)
is not part of this repository's sources; per the spec it is an
independently-defined pure scan of the log lines, abstracted as
`extractWorker` / `encW`. -/

/-- `MISSION_RESULT_PREFIX` from `cycle.py`. -/
def MISSION_RESULT_PREFIX : String := "MISSION_RESULT_JSON:"

/-- The marker test and payload extraction applied to one raw log line:
`line = raw.strip()`, keep only lines starting with the marker, and return
`line[len(MISSION_RESULT_PREFIX):].strip()`. -/
def markerPayload (raw : String) : Option String :=
  let line := pyStrip raw
  if pyStartsWith line MISSION_RESULT_PREFIX then
    some (pyStrip (pyDropChars line MISSION_RESULT_PREFIX.data.length))
  else none

/-- The scanning loop of `parse_mission_results`: per line, skip non-marker
lines, skip empty payloads silently, append parsed payloads to the results,
and record a warning (the source `print`s one) for payloads `json.loads`
rejects.  Returns `(results, warned payloads)`, both in log order. -/
def parseMissionLinesAux {J : Type} (jp : String → Option J) :
    List String → List J × List String
  | [] => ([], [])
  | raw :: rest =>
    let tail := parseMissionLinesAux jp rest
    match markerPayload raw with
    | none => tail
    | some payload =>
      if payload = "" then tail
      else
        match jp payload with
        | some v => (v :: tail.1, tail.2)
        | none => (tail.1, payload :: tail.2)

/-- `parse_mission_results(log_path)` from `cycle.py`: `[]` when the file
does not exist, otherwise the parsed marker payloads of its lines. -/
def parse_mission_results {J : Type} (jp : String → Option J)
    (logFile : Option String) : List J :=
  match logFile with
  | none => []
  | some content => (parseMissionLinesAux jp (pySplitlines content)).1

/-- The warnings `parse_mission_results` prints, one per marker line whose
nonempty payload fails to parse. -/
def parseMissionWarnings {J : Type} (jp : String → Option J)
    (logFile : Option String) : List String :=
  match logFile with
  | none => []
  | some content => (parseMissionLinesAux jp (pySplitlines content)).2

/-- `write_results_jsonl`: one `json.dumps(result)` line per record,
written with truncation (`open(path, "w")`). -/
def encodeJsonl {J : Type} (encJ : J → String) (results : List J) : String :=
  String.join (results.map fun r => encJ r ++ "\n")

/-- The artifact files of one execution that `process_cycle_artifacts`
itself reads or writes inside `runDir`, by content (`none` = file absent).
The report, memory-summary and RAG-ingest steps of the pipeline write
*other* files (`night_report_*.md`, memory summaries) and never touch
these four. -/
structure CycleFiles where
  logs : Option String
  execMeta : Option String
  missionResults : Option String
  workerResults : Option String
  deriving Repr, DecidableEq

/-- The summary values `process_cycle_artifacts` returns that the claims
inspect: the derived status, the parsed mission results and the reported
worker-results path (`None` when no worker file was generated). -/
structure ArtifactSet (J : Type) where
  executionName : String
  status : String
  missionResults : List J
  workerResultsPath : Option String
  deriving Repr, DecidableEq

/-- The `worker_results_{execution_name}.jsonl` file name. -/
def workerResultsFileName (executionName : String) : String :=
  "worker_results_" ++ executionName ++ ".jsonl"

/-- Step 1 of the pipeline, resolving the effective log text: reuse the
on-disk `logs_{name}.txt` when no text was supplied, else the supplied text
(or `""`). -/
def effectiveLogText (fs : CycleFiles) (logsText? : Option String) : String :=
  match logsText?, fs.logs with
  | none, some c => c
  | none, none => ""
  | some t, _ => t

/-- Step 2 of the pipeline: write the supplied execution metadata, or
re-read the existing file (`json.loads` failure degrading to the falsy
`{}`, modelled `none`). -/
def materializeExecMeta {E : Type} (decE : String → Option E)
    (encE : E → String) (fs : CycleFiles) (execution? : Option E) :
    CycleFiles × Option E :=
  match execution? with
  | some e => ({ fs with execMeta := some (encE e) }, some e)
  | none =>
    match fs.execMeta with
    | some c => (fs, decE c)
    | none => (fs, none)

/-- Step 4 of the pipeline: write `worker_results_{name}.jsonl` only when at
least one record was extracted; with no records and no prior file, report no
path. -/
def workerStep {W : Type} (encW : List W → String) (executionName : String)
    (fs : CycleFiles) (records : List W) : CycleFiles × Option String :=
  match records with
  | [] =>
    if fs.workerResults.isSome then
      (fs, some (workerResultsFileName executionName))
    else (fs, none)
  | _ :: _ =>
    ({ fs with workerResults := some (encW records) },
     some (workerResultsFileName executionName))

/-- `process_cycle_artifacts(run_dir, execution_name, logs_text, execution)`
from `cycle.py`, as a transformer of the tracked `runDir` files:
materialise the log, materialise execution metadata, extract mission
results from the materialised log file and always rewrite
`mission_results_{name}.jsonl`, run the worker step, and derive the status
from `execution.properties.status` (default `"unknown"`). -/
def process_cycle_artifacts {J W E : Type}
    (jp : String → Option J) (encJ : J → String)
    (extractWorker : List String → List W) (encW : List W → String)
    (decE : String → Option E) (encE : E → String)
    (statusOf : E → Option String)
    (executionName : String) (fs : CycleFiles)
    (logsText? : Option String) (execution? : Option E) :
    CycleFiles × ArtifactSet J :=
  let logsText := effectiveLogText fs logsText?
  let fs1 : CycleFiles := { fs with logs := some logsText }
  let step2 := materializeExecMeta decE encE fs1 execution?
  let fs2 := step2.1
  let execution := step2.2
  let missionResults := parse_mission_results jp fs2.logs
  let fs3 : CycleFiles :=
    { fs2 with missionResults := some (encodeJsonl encJ missionResults) }
  let workerRecords := extractWorker (pySplitlines logsText)
  let step4 := workerStep encW executionName fs3 workerRecords
  let status :=
    match execution with
    | some e => (statusOf e).getD "unknown"
    | none => "unknown"
  (step4.1,
   { executionName := executionName
     status := status
     missionResults := missionResults
     workerResultsPath := step4.2 })

/-! ## Helper lemmas -/

theorem append_affix_inj {p s a b : List Char}
    (h : p ++ a ++ s = p ++ b ++ s) : a = b :=
  List.append_cancel_left (List.append_cancel_right h)

/-! ## Claim C9: branch naming -/

/-- C9: `branch_name_for_mission` is a pure function of
(mission_id, agent, date): missions with equal `mission_id` fields receive
equal branch names (all other inputs equal), and for a fixed date and agent
two missions with distinct mission_ids receive distinct branch names. -/
theorem c9_branch_name_deterministic_injective :
    (∀ (m₁ m₂ : Mission) (agent : String) (date : Option String)
       (today : String), m₁.mission_id = m₂.mission_id →
       branch_name_for_mission m₁ agent date today =
         branch_name_for_mission m₂ agent date today)
    ∧ (∀ (m₁ m₂ : Mission) (agent : String) (date : Option String)
         (today : String) (i₁ i₂ : String),
         m₁.mission_id = some i₁ → m₂.mission_id = some i₂ → i₁ ≠ i₂ →
         branch_name_for_mission m₁ agent date today ≠
           branch_name_for_mission m₂ agent date today) := by
  constructor
  · intro m₁ m₂ agent date today h
    simp [branch_name_for_mission, h]
  · intro m₁ m₂ agent date today i₁ i₂ h1 h2 hne heq
    apply hne
    have hd := congrArg String.data heq
    simp only [branch_name_for_mission, h1, h2, Option.getD_some,
      String.data_append, List.append_assoc] at hd
    have h3 := List.append_cancel_left
      (List.append_cancel_left (List.append_cancel_left hd))
    have h4 := List.append_cancel_right h3
    exact congrArg String.mk h4

/-- Closed instance of `c9_branch_name_deterministic_injective`: two
concrete missions with distinct ids get distinct branch names on the same
day for the same agent. -/
theorem c9_witness :
    branch_name_for_mission
        { mission_id := some "NM-011", status := none, risk := none,
          priority := none, repos := .absent } "codex" (some "20240101") "20240101" ≠
      branch_name_for_mission
        { mission_id := some "NM-020", status := none, risk := none,
          priority := none, repos := .absent } "codex" (some "20240101") "20240101" :=
  c9_branch_name_deterministic_injective.2 _ _ "codex" (some "20240101")
    "20240101" "NM-011" "NM-020" rfl rfl (by decide)

/-! ## Claim C7: results root fallback -/

/-- C7 counterexample: in a filesystem state where the preferred root
cannot be created (`preferredOk = false`) and the fallback `mkdir` also
fails, `get_results_root` raises (`Except.error`) instead of returning the
fallback — the fallback `mkdir` is not wrapped in `try/except`, so the
claim's "this fallback path never raises" fails for this state. -/
theorem c7_counterexample :
    (MkdirEnv.mk false false).preferredOk = false ∧
    get_results_root "/repo/root" (MkdirEnv.mk false false) =
      .error "OSError" :=
  ⟨rfl, rfl⟩

/-- C7 (amended): when the preferred results root cannot be created and the
fallback directory creation succeeds, `get_results_root` returns the
fallback root under the local workspace without raising; when the preferred
creation succeeds it returns the preferred root. -/
theorem c7_fallback_when_creatable (pkgRoot : String) (env : MkdirEnv)
    (hpref : env.preferredOk = false) (hfb : env.fallbackOk = true) :
    get_results_root pkgRoot env = .ok (resultsFallbackRoot pkgRoot) := by
  simp [get_results_root, pyMkdir, hpref, hfb]

/-- Closed instance of `c7_fallback_when_creatable`. -/
theorem c7_witness :
    get_results_root "/repo/root" (MkdirEnv.mk false true) =
      .ok (resultsFallbackRoot "/repo/root") :=
  c7_fallback_when_creatable "/repo/root" (MkdirEnv.mk false true) rfl rfl

/-! ## Claim C8: latest execution selection -/

/-- C8: evaluating `latest_execution_name` on a two-execution list in which
one execution has no `startTime` and the other has a parseable (hence
timezone-aware, after the `Z → +00:00` rewrite) timestamp: the `max` key
comparison pits the naive `datetime.min` sentinel against an aware
datetime and raises `TypeError`, instead of selecting the execution with
the parseable timestamp as the claim requires. -/
theorem c8_mixed_awareness_type_error :
    latest_execution_name
        [ExecDesc.mk (some "exec-a") .missing,
         ExecDesc.mk (some "exec-b") (.parsed (.aware 5))] =
      .error "TypeError: can't compare offset-naive and offset-aware datetimes" :=
  rfl

/-! ## Claim C10: invalid repos dispatch -/

/-- Demo mission for C10: a registered mission id with a `repos` value that
is present, not a list, and falsy (e.g. `repos: ""` or `repos: {}`). -/
def c10FalsyReposMission : Mission :=
  { mission_id := some "NM-910", status := none, risk := none,
    priority := none, repos := .nonList false }

/-- Demo mission for C10's amended claim: `repos` present, not a list, and
truthy. -/
def c10TruthyReposMission : Mission :=
  { mission_id := some "NM-910", status := none, risk := none,
    priority := none, repos := .nonList true }

/-- C10 counterexample: a registered mission whose `repos` field is present
and not a list but *falsy* is coerced to `[]` by
`mission.get("repos") or []`, so the dispatcher answers
`"no valid repos"`, not `"invalid repos"`. -/
theorem c10_counterexample :
    run_mission_executor (fun _ _ => (0 : Nat)) c10FalsyReposMission
        "/repos" "20240101" =
      .skipped (some "NM-910") "no valid repos" ∧
    run_mission_executor (fun _ _ => (0 : Nat)) c10FalsyReposMission
        "/repos" "20240101" ≠
      .skipped (some "NM-910") "invalid repos" := by
  constructor
  · rfl
  · decide

/-- C10 (amended): for a mission whose id is registered, a `repos` field
that is present, not a list, and *truthy* yields a skipped result with
reason `"invalid repos"` without invoking any executor, while a falsy
non-list `repos` value is coerced to the empty list and yields
`"no valid repos"`. -/
theorem c10_invalid_repos {R : Type} (exec : String → String → R)
    (m : Mission) (root today : String)
    (hexec : hasExecutor m.mission_id = true) :
    (m.repos = .nonList true →
       run_mission_executor exec m root today =
         .skipped m.mission_id "invalid repos")
    ∧ (m.repos = .nonList false →
       run_mission_executor exec m root today =
         .skipped m.mission_id "no valid repos") := by
  constructor <;> intro h <;>
    simp [run_mission_executor, hexec, h, validRepoNames]

/-- Closed instance of `c10_invalid_repos` at the two demo missions. -/
theorem c10_witness :
    run_mission_executor (fun _ _ => (0 : Nat)) c10TruthyReposMission
        "/repos" "20240101" =
      .skipped (some "NM-910") "invalid repos" ∧
    run_mission_executor (fun _ _ => (0 : Nat)) c10FalsyReposMission
        "/repos" "20240101" =
      .skipped (some "NM-910") "no valid repos" :=
  ⟨(c10_invalid_repos (fun _ _ => (0 : Nat)) c10TruthyReposMission
      "/repos" "20240101" (by decide)).1 rfl,
   (c10_invalid_repos (fun _ _ => (0 : Nat)) c10FalsyReposMission
      "/repos" "20240101" (by decide)).2 rfl⟩

/-! ## Claim C4: sandbox sync graceful degradation -/

/-- A concrete git environment in which the fetch fails with a
ref-not-found error but the named branch does not exist locally either, so
the subsequent `git checkout` fails. -/
def c4FetchMissingCheckoutFails : GitSyncEnv :=
  { fetch := ⟨128, "fatal: couldn't find remote ref night/20240101/NM-011-codex"⟩,
    checkout := ⟨1, "error: pathspec night/20240101/NM-011-codex did not match any file(s) known to git"⟩,
    reset := ⟨0, ""⟩ }

/-- C4 counterexample: the claim says a ref-not-found fetch failure yields
`ok = true` (local branch used as-is, with the function creating the branch
from main/master when absent).  In the code, that path still runs a plain
`git checkout <branch>` — no branch creation from main/master exists in
`sync_with_remote_sandbox` — and a checkout failure makes it return
`ok = false`. -/
theorem c4_counterexample :
    c4FetchMissingCheckoutFails.fetch.returncode = 128 ∧
    refNotFoundErr c4FetchMissingCheckoutFails.fetch.stderr = true ∧
    (sync_with_remote_sandbox c4FetchMissingCheckoutFails).1 = false := by
  refine ⟨rfl, by decide, by decide⟩

/-- C4 (amended): `sync_with_remote_sandbox` returns `ok = false` on a
fetch failure other than ref-not-found; after a ref-not-found fetch it
still checks out the branch (it never creates it from main/master),
returning `ok = false` if the checkout fails and `(true, "no remote branch;
using local sandbox")` if it succeeds; on a successful fetch followed by a
successful checkout it hard-resets to `origin/<branch>`, a reset failure
mentioning "unknown revision"/"not a valid object" being non-fatal
(`ok = true`), any other reset failure fatal, and a clean reset reporting
`(true, "synced with remote sandbox")`. -/
theorem c4_sync_cases (env : GitSyncEnv) :
    (env.fetch.returncode ≠ 0 → refNotFoundErr env.fetch.stderr = false →
       sync_with_remote_sandbox env =
         (false, pyOrDefault (pyStrip env.fetch.stderr) "git fetch failed"))
    ∧ ((env.fetch.returncode = 0 ∨ refNotFoundErr env.fetch.stderr = true) →
       env.checkout.returncode ≠ 0 →
       sync_with_remote_sandbox env =
         (false, pyOrDefault (pyStrip env.checkout.stderr) "git checkout failed"))
    ∧ (env.fetch.returncode ≠ 0 → refNotFoundErr env.fetch.stderr = true →
       env.checkout.returncode = 0 →
       sync_with_remote_sandbox env = (true, "no remote branch; using local sandbox"))
    ∧ (env.fetch.returncode = 0 → env.checkout.returncode = 0 →
       env.reset.returncode ≠ 0 → unknownRevisionErr env.reset.stderr = true →
       sync_with_remote_sandbox env =
         (true, "remote branch missing after fetch; using local only"))
    ∧ (env.fetch.returncode = 0 → env.checkout.returncode = 0 →
       env.reset.returncode ≠ 0 → unknownRevisionErr env.reset.stderr = false →
       sync_with_remote_sandbox env =
         (false, pyOrDefault (pyStrip env.reset.stderr) "git reset failed"))
    ∧ (env.fetch.returncode = 0 → env.checkout.returncode = 0 →
       env.reset.returncode = 0 →
       sync_with_remote_sandbox env = (true, "synced with remote sandbox")) := by
  refine ⟨?_, ?_, ?_, ?_, ?_, ?_⟩
  · intro hf hr
    simp [sync_with_remote_sandbox, hf, hr]
  · rintro (hf | hr) hc
    · simp [sync_with_remote_sandbox, syncAfterFetch, hf, hc]
    · by_cases hf : env.fetch.returncode = 0 <;>
        simp [sync_with_remote_sandbox, syncAfterFetch, hf, hr, hc]
  · intro hf hr hc
    simp [sync_with_remote_sandbox, syncAfterFetch, hf, hr, hc]
  · intro hf hc hrs hu
    simp [sync_with_remote_sandbox, syncAfterFetch, hf, hc, hrs, hu]
  · intro hf hc hrs hu
    simp [sync_with_remote_sandbox, syncAfterFetch, hf, hc, hrs, hu]
  · intro hf hc hrs
    simp [sync_with_remote_sandbox, syncAfterFetch, hf, hc, hrs]

/-- A concrete git environment: ref-not-found fetch, successful checkout. -/
def c4FetchMissingCheckoutOk : GitSyncEnv :=
  { fetch := ⟨128, "fatal: couldn't find remote ref night/20240101/NM-011-codex"⟩,
    checkout := ⟨0, ""⟩,
    reset := ⟨0, ""⟩ }

/-- Closed instance of `c4_sync_cases`: the ref-not-found path with a
successful checkout degrades gracefully. -/
theorem c4_witness :
    sync_with_remote_sandbox c4FetchMissingCheckoutOk =
      (true, "no remote branch; using local sandbox") :=
  (c4_sync_cases c4FetchMissingCheckoutOk).2.2.1 (by decide) (by decide) rfl

/-! ## Claim C2: executor routing -/

/-- C2: `run_mission_executor` is total (never raises) and returns: a
skipped result `"no executor"` when the mission id is not a registry key; a
single skipped result `"no valid repos"` when no declared repo entry has a
truthy name; and otherwise the first valid repo's executor result — the
outcome only depends on the executor's value at the first valid repo, so
results for all later repos are discarded. -/
theorem c2_run_mission_executor {R : Type} (exec : String → String → R)
    (m : Mission) (root today : String) :
    (hasExecutor m.mission_id = false →
       run_mission_executor exec m root today =
         .skipped m.mission_id "no executor")
    ∧ (∀ entries, hasExecutor m.mission_id = true →
         m.repos = .list entries → validRepoNames entries = [] →
         run_mission_executor exec m root today =
           .skipped m.mission_id "no valid repos")
    ∧ (∀ entries nm rest, hasExecutor m.mission_id = true →
         m.repos = .list entries → validRepoNames entries = nm :: rest →
         run_mission_executor exec m root today =
           .result (exec (root ++ "/" ++ nm)
             (branch_name_for_mission m "codex" none today)))
    ∧ (∀ (exec' : String → String → R) entries nm rest,
         hasExecutor m.mission_id = true →
         m.repos = .list entries → validRepoNames entries = nm :: rest →
         exec (root ++ "/" ++ nm) (branch_name_for_mission m "codex" none today)
           = exec' (root ++ "/" ++ nm) (branch_name_for_mission m "codex" none today) →
         run_mission_executor exec m root today =
           run_mission_executor exec' m root today) := by
  have key : ∀ (exec₀ : String → String → R) entries nm rest,
      hasExecutor m.mission_id = true →
      m.repos = .list entries → validRepoNames entries = nm :: rest →
      run_mission_executor exec₀ m root today =
        .result (exec₀ (root ++ "/" ++ nm)
          (branch_name_for_mission m "codex" none today)) := by
    intro exec₀ entries nm rest hx hrep hval
    simp [run_mission_executor, hx, hrep, hval]
  refine ⟨?_, ?_, ?_, ?_⟩
  · intro hx
    simp [run_mission_executor, hx]
  · intro entries hx hrep hval
    simp [run_mission_executor, hx, hrep, hval]
  · exact fun entries nm rest hx hrep hval => key exec entries nm rest hx hrep hval
  · intro exec' entries nm rest hx hrep hval hagree
    rw [key exec entries nm rest hx hrep hval,
      key exec' entries nm rest hx hrep hval, hagree]

/-- Demo mission for C2: registered id, repo entries without a name (absent,
empty, non-dict) preceding two valid repos. -/
def c2DemoMission : Mission :=
  { mission_id := some "NM-011", status := some "ready",
    risk := some ⟨some "L1"⟩, priority := some 7,
    repos := .list [.dict none, .dict (some ""), .nonDict,
      .dict (some "ls-scheduler"), .dict (some "other-repo")] }

/-- Demo mission for C2: an id absent from the executor registry. -/
def c2UnregisteredMission : Mission :=
  { mission_id := some "NM-999", status := some "ready",
    risk := some ⟨some "L1"⟩, priority := some 7,
    repos := .list [.dict (some "ls-scheduler")] }

/-- Closed instance of `c2_run_mission_executor`: the demo mission's
nameless entries are skipped and only the first valid repo's result is
returned; an unregistered mission id is skipped with `"no executor"`. -/
theorem c2_witness :
    run_mission_executor (fun p b => (p, b)) c2DemoMission "/repos" "20240101" =
      .result ("/repos/ls-scheduler", "night/20240101/NM-011-codex")
    ∧ run_mission_executor (fun p b => (p, b)) c2UnregisteredMission
        "/repos" "20240101" =
      .skipped (some "NM-999") "no executor" := by
  have h1 := (c2_run_mission_executor (fun p b => (p, b)) c2DemoMission
      "/repos" "20240101").2.2.1
    [.dict none, .dict (some ""), .nonDict, .dict (some "ls-scheduler"),
     .dict (some "other-repo")]
    "ls-scheduler" ["other-repo"] (by decide) rfl (by decide)
  have h2 := (c2_run_mission_executor (fun p b => (p, b)) c2UnregisteredMission
      "/repos" "20240101").1 (by decide)
  exact ⟨h1.trans (by decide), h2⟩

/-! ## Claim C5: marker extraction tolerance -/

/-- The payloads `parse_mission_results` warns about: marker lines whose
nonempty payload the JSON decoder rejects. -/
def badPayloadOf {J : Type} (jp : String → Option J) (raw : String) :
    Option String :=
  match markerPayload raw with
  | some p =>
    if p = "" then none
    else
      match jp p with
      | some _ => none
      | none => some p
  | none => none

theorem parseMissionLinesAux_eq {J : Type} (jp : String → Option J)
    (h : jp "" = none) (ls : List String) :
    parseMissionLinesAux jp ls =
      (ls.filterMap (fun raw => (markerPayload raw).bind jp),
       ls.filterMap (badPayloadOf jp)) := by
  induction ls with
  | nil => simp [parseMissionLinesAux]
  | cons raw rest ih =>
    simp only [parseMissionLinesAux, ih, List.filterMap_cons]
    cases hm : markerPayload raw with
    | none => simp [badPayloadOf, hm]
    | some p =>
      by_cases hp : p = ""
      · subst hp
        simp [badPayloadOf, hm, h]
      · cases hjp : jp p with
        | some v => simp [badPayloadOf, hm, hp, hjp]
        | none => simp [badPayloadOf, hm, hp, hjp]

/-- A sample JSON decoder instantiating the abstract `json.loads`
parameter on the spec's three-line example: it accepts exactly one
well-formed payload. -/
def toyJsonParse (s : String) : Option Nat :=
  if s = "\x7b\"mission\": \"NM-011\", \"success\": true\x7d" then some 1
  else none

/-- The spec's example log: one well-formed marker line, one marker line
with truncated JSON, one unrelated line. -/
def c5DemoLog : String :=
  "MISSION_RESULT_JSON: \x7b\"mission\": \"NM-011\", \"success\": true\x7d\n" ++
  "MISSION_RESULT_JSON: \x7b\"mission\": \"NM-0\n" ++
  "some unrelated line"

/-- C5: over any log file, `parse_mission_results` returns, in log order,
one parsed object per marker line whose (stripped) payload the JSON
decoder accepts, and warns once per marker line whose nonempty payload is
rejected — a bad line never aborts the scan; on the spec's three-line
example, exactly one result is extracted and one warning is recorded. -/
theorem c5_marker_extraction {J : Type} (jp : String → Option J)
    (content : String) (h : jp "" = none) :
    parse_mission_results jp (some content) =
      (pySplitlines content).filterMap (fun raw => (markerPayload raw).bind jp)
    ∧ parseMissionWarnings jp (some content) =
      (pySplitlines content).filterMap (badPayloadOf jp)
    ∧ parse_mission_results toyJsonParse (some c5DemoLog) = [1]
    ∧ parseMissionWarnings toyJsonParse (some c5DemoLog) =
      ["\x7b\"mission\": \"NM-0"] := by
  refine ⟨?_, ?_, by decide, by decide⟩
  · simp [parse_mission_results, parseMissionLinesAux_eq jp h]
  · simp [parseMissionWarnings, parseMissionLinesAux_eq jp h]

/-- Closed instance of `c5_marker_extraction` at the sample decoder and the
example log. -/
theorem c5_witness :
    parse_mission_results toyJsonParse (some c5DemoLog) = [1]
    ∧ parseMissionWarnings toyJsonParse (some c5DemoLog) =
      ["\x7b\"mission\": \"NM-0"] :=
  ⟨(c5_marker_extraction toyJsonParse c5DemoLog (by decide)).2.2.1,
   (c5_marker_extraction toyJsonParse c5DemoLog (by decide)).2.2.2⟩

/-! ## Pipeline lemmas shared by claims C3 and C6 -/

section Pipeline

variable {J W E : Type} (jp : String → Option J) (encJ : J → String)
  (extractWorker : List String → List W) (encW : List W → String)
  (decE : String → Option E) (encE : E → String)
  (statusOf : E → Option String) (executionName : String)

theorem materializeExecMeta_fst (fs : CycleFiles) (ex : Option E) :
    ((materializeExecMeta decE encE fs ex).1.logs = fs.logs)
    ∧ ((materializeExecMeta decE encE fs ex).1.missionResults = fs.missionResults)
    ∧ ((materializeExecMeta decE encE fs ex).1.workerResults = fs.workerResults) := by
  cases ex with
  | some e => exact ⟨rfl, rfl, rfl⟩
  | none =>
    cases hex : fs.execMeta <;> simp [materializeExecMeta, hex]

theorem workerStep_fst_logs (fs : CycleFiles) (rs : List W) :
    ((workerStep encW executionName fs rs).1.logs = fs.logs)
    ∧ ((workerStep encW executionName fs rs).1.missionResults = fs.missionResults) := by
  cases rs with
  | nil =>
    simp only [workerStep]
    split <;> exact ⟨rfl, rfl⟩
  | cons w ws => exact ⟨rfl, rfl⟩

theorem workerStep_fst_workerResults (fs : CycleFiles) (rs : List W) :
    (workerStep encW executionName fs rs).1.workerResults =
      (match rs with
       | [] => fs.workerResults
       | _ :: _ => some (encW rs)) := by
  cases rs with
  | nil =>
    simp only [workerStep]
    split <;> rfl
  | cons w ws => rfl

theorem workerStep_snd (fs : CycleFiles) (rs : List W) :
    (workerStep encW executionName fs rs).2 =
      (match rs with
       | [] =>
         if fs.workerResults.isSome then some (workerResultsFileName executionName)
         else none
       | _ :: _ => some (workerResultsFileName executionName)) := by
  cases rs with
  | nil =>
    simp only [workerStep]
    split <;> rfl
  | cons w ws => rfl

theorem process_fst_logs (fs : CycleFiles) (lt : Option String)
    (ex : Option E) :
    (process_cycle_artifacts jp encJ extractWorker encW decE encE statusOf
        executionName fs lt ex).1.logs = some (effectiveLogText fs lt) := by
  simp only [process_cycle_artifacts]
  rw [(workerStep_fst_logs encW executionName _ _).1]
  exact (materializeExecMeta_fst decE encE _ ex).1

theorem process_fst_missionResults (fs : CycleFiles) (lt : Option String)
    (ex : Option E) :
    (process_cycle_artifacts jp encJ extractWorker encW decE encE statusOf
        executionName fs lt ex).1.missionResults =
      some (encodeJsonl encJ (parse_mission_results jp
        (some (effectiveLogText fs lt)))) := by
  simp only [process_cycle_artifacts]
  rw [(workerStep_fst_logs encW executionName _ _).2]
  have hlogs := (materializeExecMeta_fst decE encE
    { fs with logs := some (effectiveLogText fs lt) } ex).1
  simp [hlogs]

theorem process_fst_workerResults (fs : CycleFiles) (lt : Option String)
    (ex : Option E) :
    (process_cycle_artifacts jp encJ extractWorker encW decE encE statusOf
        executionName fs lt ex).1.workerResults =
      (match extractWorker (pySplitlines (effectiveLogText fs lt)) with
       | [] => fs.workerResults
       | rs => some (encW rs)) := by
  simp only [process_cycle_artifacts]
  rw [workerStep_fst_workerResults]
  cases extractWorker (pySplitlines (effectiveLogText fs lt)) with
  | nil =>
    simp only []
    exact (materializeExecMeta_fst decE encE _ ex).2.2
  | cons w ws => rfl

theorem process_snd_workerResultsPath (fs : CycleFiles) (lt : Option String)
    (ex : Option E) :
    (process_cycle_artifacts jp encJ extractWorker encW decE encE statusOf
        executionName fs lt ex).2.workerResultsPath =
      (match extractWorker (pySplitlines (effectiveLogText fs lt)) with
       | [] =>
         if fs.workerResults.isSome then some (workerResultsFileName executionName)
         else none
       | _ :: _ => some (workerResultsFileName executionName)) := by
  simp only [process_cycle_artifacts]
  rw [workerStep_snd]
  cases extractWorker (pySplitlines (effectiveLogText fs lt)) with
  | nil =>
    simp only []
    rw [(materializeExecMeta_fst decE encE _ ex).2.2]
  | cons w ws => rfl

/-! ## Claim C6: worker-results file creation -/

/-- C6: the pipeline leaves the worker-results file exactly as the worker
extraction dictates: with zero extracted records and no prior file, no
`worker_results_{name}.jsonl` is created and the returned artifact set
reports no worker-results path; with zero records but a prior file, the
file is left untouched (the path is still reported); the file content
changes only when at least one record was extracted, in which case the
records are written and the path reported. -/
theorem c6_worker_results_file (fs : CycleFiles) (lt : Option String)
    (ex : Option E) :
    (extractWorker (pySplitlines (effectiveLogText fs lt)) = [] →
       fs.workerResults = none →
       (process_cycle_artifacts jp encJ extractWorker encW decE encE statusOf
           executionName fs lt ex).1.workerResults = none
       ∧ (process_cycle_artifacts jp encJ extractWorker encW decE encE statusOf
           executionName fs lt ex).2.workerResultsPath = none)
    ∧ (∀ c, extractWorker (pySplitlines (effectiveLogText fs lt)) = [] →
       fs.workerResults = some c →
       (process_cycle_artifacts jp encJ extractWorker encW decE encE statusOf
           executionName fs lt ex).1.workerResults = some c
       ∧ (process_cycle_artifacts jp encJ extractWorker encW decE encE statusOf
           executionName fs lt ex).2.workerResultsPath =
         some (workerResultsFileName executionName))
    ∧ (∀ w ws, extractWorker (pySplitlines (effectiveLogText fs lt)) = w :: ws →
       (process_cycle_artifacts jp encJ extractWorker encW decE encE statusOf
           executionName fs lt ex).1.workerResults = some (encW (w :: ws))
       ∧ (process_cycle_artifacts jp encJ extractWorker encW decE encE statusOf
           executionName fs lt ex).2.workerResultsPath =
         some (workerResultsFileName executionName))
    ∧ ((process_cycle_artifacts jp encJ extractWorker encW decE encE statusOf
           executionName fs lt ex).1.workerResults ≠ fs.workerResults →
       extractWorker (pySplitlines (effectiveLogText fs lt)) ≠ []) := by
  refine ⟨?_, ?_, ?_, ?_⟩
  · intro hrec hprior
    rw [process_fst_workerResults, process_snd_workerResultsPath, hrec, hprior]
    exact ⟨rfl, rfl⟩
  · intro c hrec hprior
    rw [process_fst_workerResults, process_snd_workerResultsPath, hrec, hprior]
    exact ⟨rfl, rfl⟩
  · intro w ws hrec
    rw [process_fst_workerResults, process_snd_workerResultsPath, hrec]
    exact ⟨rfl, rfl⟩
  · intro hne hrec
    apply hne
    rw [process_fst_workerResults, hrec]

/-- Closed instance of `c6_worker_results_file`: an extraction that finds
no records, over a run directory with no prior worker file, creates no
file and reports no path. -/
theorem c6_witness :
    (process_cycle_artifacts (fun _ => (none : Option Nat)) (fun _ => "")
        (fun _ => ([] : List Nat)) (fun _ => "")
        (fun _ => (none : Option Nat)) (fun _ => "") (fun _ => none)
        "exec-1" (CycleFiles.mk none none none none)
        (some "hello\n") none).1.workerResults = none
    ∧ (process_cycle_artifacts (fun _ => (none : Option Nat)) (fun _ => "")
        (fun _ => ([] : List Nat)) (fun _ => "")
        (fun _ => (none : Option Nat)) (fun _ => "") (fun _ => none)
        "exec-1" (CycleFiles.mk none none none none)
        (some "hello\n") none).2.workerResultsPath = none :=
  (c6_worker_results_file (fun _ => (none : Option Nat)) (fun _ => "")
      (fun _ => ([] : List Nat)) (fun _ => "")
      (fun _ => (none : Option Nat)) (fun _ => "") (fun _ => none)
      "exec-1" (CycleFiles.mk none none none none)
      (some "hello\n") none).1 rfl rfl

/-! ## Claim C3: idempotent artifact pipeline -/

/-- C3: re-running `process_cycle_artifacts` for the same run directory and
execution name with no new raw log text and no new execution metadata, over
the files left by the first run, leaves `mission_results_{name}.jsonl` and
`worker_results_{name}.jsonl` byte-identical to their contents after the
first run. -/
theorem c3_second_run_idempotent (fs : CycleFiles) (lt : Option String)
    (ex : Option E) :
    (process_cycle_artifacts jp encJ extractWorker encW decE encE statusOf
        executionName
        (process_cycle_artifacts jp encJ extractWorker encW decE encE statusOf
          executionName fs lt ex).1
        none none).1.missionResults =
      (process_cycle_artifacts jp encJ extractWorker encW decE encE statusOf
        executionName fs lt ex).1.missionResults
    ∧ (process_cycle_artifacts jp encJ extractWorker encW decE encE statusOf
        executionName
        (process_cycle_artifacts jp encJ extractWorker encW decE encE statusOf
          executionName fs lt ex).1
        none none).1.workerResults =
      (process_cycle_artifacts jp encJ extractWorker encW decE encE statusOf
        executionName fs lt ex).1.workerResults := by
  have hL : effectiveLogText
      (process_cycle_artifacts jp encJ extractWorker encW decE encE statusOf
        executionName fs lt ex).1 none = effectiveLogText fs lt := by
    unfold effectiveLogText
    rw [process_fst_logs]
    rfl
  constructor
  · rw [process_fst_missionResults, process_fst_missionResults, hL]
  · rw [process_fst_workerResults, process_fst_workerResults, hL]
    cases hrec : extractWorker (pySplitlines (effectiveLogText fs lt)) <;> rfl

end Pipeline

/-! ## Claim C1: mission selection -/

theorem readyTuples_eq (missions : List Mission) :
    readyTuples missions =
      (missions.filter (fun m => isEligible m)).map
        (fun m => (missionPriority m, missionIdOrEmpty m, m)) := by
  induction missions with
  | nil => rfl
  | cons m rest ih =>
    simp only [readyTuples] at ih ⊢
    rw [List.filterMap_cons, List.filter_cons]
    by_cases h : isEligible m
    · simp [h, ih]
    · simp [h, ih]

theorem mem_readyTuples {missions : List Mission}
    {t : Int × String × Mission} (ht : t ∈ readyTuples missions) :
    isEligible t.2.2 = true ∧ (t.1, t.2.1) = missionKey t.2.2 := by
  rw [readyTuples_eq] at ht
  obtain ⟨m, hm, rfl⟩ := List.mem_map.mp ht
  exact ⟨(List.mem_filter.mp hm).2, rfl⟩

/-- Ascending `(priority, mission_id)` order directly on missions, the
order the spec's words prescribe for the output list. -/
def missionLe (m₁ m₂ : Mission) : Prop :=
  keyLex (missionKey m₁) (missionKey m₂)

instance : DecidableRel missionLe := fun m₁ m₂ => by
  unfold missionLe; infer_instance

/-- Specification-side selection, following the spec's words: filter to
`status == "ready" AND risk.tier == "L1"`, stable-sort ascending by the
`(priority, mission_id)` pair, truncate to the first `maxCount` entries. -/
def selectReadySpec (missions : List Mission) (maxCount : Nat) :
    List Mission :=
  ((missions.filter (fun m => isEligible m)).insertionSort missionLe).take
    maxCount

theorem orderedInsert_map_enrich (m : Mission)
    (ts : List (Int × String × Mission))
    (hts : ∀ t ∈ ts, (t.1, t.2.1) = missionKey t.2.2) :
    (ts.orderedInsert tupleLe (missionPriority m, missionIdOrEmpty m, m)).map
        (fun t => t.2.2) =
      (ts.map (fun t => t.2.2)).orderedInsert missionLe m := by
  induction ts with
  | nil => rfl
  | cons t ts ih =>
    have hkey : (t.1, t.2.1) = missionKey t.2.2 :=
      hts t (List.mem_cons_self t ts)
    have hcond :
        tupleLe (missionPriority m, missionIdOrEmpty m, m) t ↔
          missionLe m t.2.2 := by
      unfold tupleLe missionLe
      rw [hkey]
      exact Iff.rfl
    simp only [List.orderedInsert, List.map_cons]
    by_cases h : missionLe m t.2.2
    · rw [if_pos (hcond.mpr h), if_pos h]
      simp
    · rw [if_neg (fun hc => h (hcond.mp hc)), if_neg h, List.map_cons,
        ih (fun u hu => hts u (List.mem_cons_of_mem _ hu))]

theorem insertionSort_map_enrich (l : List Mission) :
    ((l.map (fun m => (missionPriority m, missionIdOrEmpty m, m))).insertionSort
        tupleLe).map (fun t => t.2.2) =
      l.insertionSort missionLe := by
  induction l with
  | nil => rfl
  | cons m rest ih =>
    have hts : ∀ t ∈ (rest.map
        (fun m => (missionPriority m, missionIdOrEmpty m, m))).insertionSort
          tupleLe, (t.1, t.2.1) = missionKey t.2.2 := by
      intro t ht
      have ht' := (List.perm_insertionSort tupleLe _).mem_iff.mp ht
      obtain ⟨m', _, rfl⟩ := List.mem_map.mp ht'
      rfl
    simp only [List.map_cons, List.insertionSort]
    rw [orderedInsert_map_enrich m _ hts, ih]

/-- The three missions of spec §8.2: priorities [30, 10, 10], ids
["NM-003", "NM-001", "NM-002"], all ready and tier L1. -/
def demoNM003 : Mission :=
  { mission_id := some "NM-003", status := some "ready",
    risk := some ⟨some "L1"⟩, priority := some 30, repos := .absent }

def demoNM001 : Mission :=
  { mission_id := some "NM-001", status := some "ready",
    risk := some ⟨some "L1"⟩, priority := some 10, repos := .absent }

def demoNM002 : Mission :=
  { mission_id := some "NM-002", status := some "ready",
    risk := some ⟨some "L1"⟩, priority := some 10, repos := .absent }

def c1DemoMissions : List Mission := [demoNM003, demoNM001, demoNM002]

/-- C1: `select_ready_missions` equals the specification-side
`selectReadySpec` — filter to ready/L1, stable-sort ascending by the
`(priority, mission_id)` pair, truncate to the *first* `maxCount` entries
— so the truncated output is pinned exactly; in addition, every selected
mission is eligible; the output is ascending in the `(priority,
mission_id)` key (priority defaulting to 50); it has exactly
`min maxCount (number of eligible missions)` entries; when `maxCount`
covers all eligible missions the output is a permutation of the eligible
sublist (so exactly the eligible missions are returned); the spec's
example returns [NM-001, NM-002, NM-003]; and with `maxCount = 2` it is
truncated to the two lowest-keyed missions [NM-001, NM-002].
Determinism holds because the embedding is a pure function of the input
list. -/
theorem c1_select_ready_missions (missions : List Mission) (n : Nat) :
    select_ready_missions missions n = selectReadySpec missions n
    ∧ (∀ m ∈ select_ready_missions missions n, isEligible m = true)
    ∧ List.Pairwise (fun m₁ m₂ => keyLex (missionKey m₁) (missionKey m₂))
        (select_ready_missions missions n)
    ∧ (select_ready_missions missions n).length =
        min n (missions.filter (fun m => isEligible m)).length
    ∧ ((missions.filter (fun m => isEligible m)).length ≤ n →
        (select_ready_missions missions n).Perm
          (missions.filter (fun m => isEligible m)))
    ∧ select_ready_missions c1DemoMissions 10 =
        [demoNM001, demoNM002, demoNM003]
    ∧ select_ready_missions c1DemoMissions 2 = [demoNM001, demoNM002] := by
  have hperm : ((readyTuples missions).insertionSort tupleLe).Perm
      (readyTuples missions) := List.perm_insertionSort tupleLe _
  have hmem_sorted : ∀ t ∈ ((readyTuples missions).insertionSort tupleLe).take n,
      t ∈ readyTuples missions := by
    intro t ht
    exact hperm.mem_iff.mp (List.take_subset _ _ ht)
  refine ⟨?_, ?_, ?_, ?_, ?_, by decide, by decide⟩
  · rw [select_ready_missions, selectReadySpec, readyTuples_eq,
      List.map_take, insertionSort_map_enrich]
  · intro m hm
    obtain ⟨t, ht, rfl⟩ := List.mem_map.mp hm
    exact (mem_readyTuples (hmem_sorted t ht)).1
  · rw [select_ready_missions, List.pairwise_map]
    have hsorted : List.Pairwise tupleLe
        ((readyTuples missions).insertionSort tupleLe) :=
      List.sorted_insertionSort tupleLe (readyTuples missions)
    have htake : List.Pairwise tupleLe
        (((readyTuples missions).insertionSort tupleLe).take n) :=
      hsorted.sublist (List.take_sublist n _)
    refine htake.imp_of_mem ?_
    intro a b ha hb hab
    have hka := (mem_readyTuples (hmem_sorted a ha)).2
    have hkb := (mem_readyTuples (hmem_sorted b hb)).2
    unfold tupleLe at hab
    rwa [hka, hkb] at hab
  · rw [select_ready_missions, List.length_map, List.length_take,
      hperm.length_eq, readyTuples_eq, List.length_map]
  · intro hn
    have hlen : ((readyTuples missions).insertionSort tupleLe).length =
        (missions.filter (fun m => isEligible m)).length := by
      rw [hperm.length_eq, readyTuples_eq, List.length_map]
    rw [select_ready_missions, List.take_of_length_le (le_trans hlen.le hn)]
    have hmap : (readyTuples missions).map (fun t => t.2.2) =
        missions.filter (fun m => isEligible m) := by
      rw [readyTuples_eq, List.map_map]
      exact List.map_id _
    calc (((readyTuples missions).insertionSort tupleLe).map
            fun t => t.2.2).Perm
          ((readyTuples missions).map fun t => t.2.2) := hperm.map _
      _ = missions.filter (fun m => isEligible m) := hmap

/-- Closed instance of `c1_select_ready_missions`: with `maxCount = 10`
the selection over the spec's example is a permutation of its eligible
missions. -/
theorem c1_witness :
    (select_ready_missions c1DemoMissions 10).Perm
      (c1DemoMissions.filter (fun m => isEligible m)) :=
  (c1_select_ready_missions c1DemoMissions 10).2.2.2.2.1 (by decide)

end NightRunner
